import Mathlib

/-!
Verification of the job-hunter batch pipeline (src/job_hunter.py).

The Python module is embedded shallowly: pure helpers become Lean
functions, the SQLite table becomes a list of rows with the two
uniqueness constraints modelled explicitly, `datetime` formatting is
implemented over epoch seconds, and the run/except control flow of the
orchestrator becomes an `Except`-valued step function.  All definitions
are executable.
-/

namespace JobHunter

/-- Default ROLE_KEYWORDS configuration (module line 55). -/
def ROLE_KEYWORDS : List String :=
  ["full stack", "frontend", "front-end", "backend", "back-end",
   "software developer", "software engineer", "web developer"]

/-- Default SKILL_KEYWORDS configuration (module line 56). -/
def SKILL_KEYWORDS : List String :=
  ["python", "html", "css", "javascript", "bootstrap", "jquery", "ajax",
   "laravel", "php", "vue", "vuejs", "angular", "react", "reactjs"]

/-- Default EXP_KEYWORDS configuration (module line 57). -/
def EXP_KEYWORDS : List String :=
  ["fresher", "0-6 months", "0 to 6 months", "0-1 year", "0 to 1 year",
   "no experience", "entry level", "junior", "trainee"]

/-- Default MAX_RESULTS_PER_RUN configuration (module line 60). -/
def MAX_RESULTS_PER_RUN : Nat := 80

/-- Default RUN_EVERY_HOURS configuration (module line 48). -/
def RUN_EVERY_HOURS : ℚ := 2

/-- Default MAX_POST_AGE_HOURS configuration (module line 53). -/
def MAX_POST_AGE_HOURS : ℚ := 6

/-- Python `str.lower()` on the character list of a string. -/
def lowerStr (s : String) : String := String.mk (s.data.map Char.toLower)

/-- Test whether `needle` is an initial segment of the second list. -/
def leadsWith : List Char → List Char → Bool
  | [], _ => true
  | _ :: _, [] => false
  | a :: as, b :: bs => a == b && leadsWith as bs

/-- Model of the Python substring test `needle in hay`. -/
def hasSub (needle : List Char) : List Char → Bool
  | [] => leadsWith needle []
  | c :: rest => leadsWith needle (c :: rest) || hasSub needle rest

/-- Source function `contains_any(text, keywords)`: case-insensitive
substring test of any keyword in the text. -/
def contains_any (text : String) (keywords : List String) : Bool :=
  keywords.any (fun kw => hasSub (lowerStr kw).data (lowerStr text).data)

/-- Source predicate `role_ok` (line 167). -/
def role_ok (text : String) : Bool := contains_any text ROLE_KEYWORDS

/-- Source predicate `skills_ok` (line 170). -/
def skills_ok (text : String) : Bool := contains_any text SKILL_KEYWORDS

/-! Regular-expression engine for the fixed experience patterns.  A
matcher consumes characters from the current position; the previously
consumed character is threaded through so that word boundaries can be
decided as in Python `re`. -/

/-- Python `\w` (ASCII fragment relevant to the fixed patterns). -/
def isWordChar (c : Char) : Bool := c.isAlphanum || c == '_'

/-- Python `\s` (ASCII whitespace). -/
def isSpaceChar (c : Char) : Bool :=
  c == ' ' || c == '\t' || c == '\n' || c == '\r' || c == '\x0b' || c == '\x0c'

/-- The character class `[-–]` (hyphen or en-dash). -/
def isDashChar (c : Char) : Bool := c == '-' || c == '–'

/-- A matcher takes the previous character (none at string start) and the
remaining input, and returns the state after a successful match. -/
abbrev Matcher := Option Char → List Char → Option (Option Char × List Char)

/-- Empty regex: matches without consuming. -/
def mEps : Matcher := fun pc rest => some (pc, rest)

/-- Sequencing of two matchers. -/
def mSeq (m1 m2 : Matcher) : Matcher := fun pc rest =>
  match m1 pc rest with
  | none => none
  | some (pc2, r2) => m2 pc2 r2

/-- Sequencing of a list of matchers. -/
def mSeqs (ms : List Matcher) : Matcher := ms.foldr mSeq mEps

/-- Greedy `?` on a matcher (sound for the fixed patterns below, where a
successful inner match never blocks the continuation). -/
def mOpt (m : Matcher) : Matcher := fun pc rest =>
  match m pc rest with
  | none => some (pc, rest)
  | some s => some s

/-- Single character from a class. -/
def mCls (p : Char → Bool) : Matcher := fun _ rest =>
  match rest with
  | [] => none
  | c :: cs => if p c then some (some c, cs) else none

/-- Greedy Kleene star over a character class; always succeeds. -/
def mStarAux (p : Char → Bool) : Option Char → List Char → Option Char × List Char
  | pc, [] => (pc, [])
  | pc, c :: cs => if p c then mStarAux p (some c) cs else (pc, c :: cs)

/-- Star `p*` as a matcher. -/
def mStar (p : Char → Bool) : Matcher := fun pc rest => some (mStarAux p pc rest)

/-- Plus `p+` as a matcher. -/
def mPlus (p : Char → Bool) : Matcher := mSeq (mCls p) (mStar p)

/-- Literal character sequence. -/
def mLit : List Char → Matcher
  | [] => mEps
  | l :: ls => mSeq (mCls (fun c => c == l)) (mLit ls)

/-- Literal string. -/
def mStr (s : String) : Matcher := mLit s.data

/-- Python `\b`: word-ness differs between the previous character and the
next one (string edges count as non-word). -/
def atBoundary (pc : Option Char) (rest : List Char) : Bool :=
  (match pc with | none => false | some c => isWordChar c)
    != (match rest with | [] => false | c :: _ => isWordChar c)

/-- Boundary `\b` as a matcher (consumes nothing). -/
def mBound : Matcher := fun pc rest =>
  if atBoundary pc rest then some (pc, rest) else none

/-- Model of `re.search`: try the matcher at every start position. -/
def searchFrom (m : Matcher) : Option Char → List Char → Bool
  | pc, [] => (m pc []).isSome
  | pc, c :: cs => (m pc (c :: cs)).isSome || searchFrom m (some c) cs

/-- Search over a whole string. -/
def reSearch (m : Matcher) (s : String) : Bool := searchFrom m none s.data

/-- Shared shape of the patterns `\b0\s*SEP\s*HI\s*UNITs?\b`. -/
def patRange (sep : Matcher) (hi unit : String) : Matcher :=
  mSeqs [mBound, mStr "0", mStar isSpaceChar, sep, mStar isSpaceChar,
         mStr hi, mStar isSpaceChar, mStr unit, mOpt (mStr "s"), mBound]

/-- The nine fixed experience regexes of `experience_ok` (source lines
150-160), in source order. -/
def expPatterns : List Matcher :=
  [ patRange (mCls isDashChar) "6" "month",
    patRange (mStr "to") "6" "month",
    patRange (mCls isDashChar) "1" "year",
    patRange (mStr "to") "1" "year",
    mSeqs [mBound,
           mOpt (mSeqs [mStr "up", mStar isSpaceChar, mStr "to", mStar isSpaceChar]),
           mStr "6", mStar isSpaceChar, mStr "month", mOpt (mStr "s"),
           mStar isSpaceChar, mOpt (mStr "of"), mStar isSpaceChar,
           mStr "experience", mBound],
    mSeqs [mBound, mStr "fresher", mOpt (mStr "s"), mBound],
    mSeqs [mBound, mStr "entry",
           mOpt (mCls (fun c => c == '-' || isSpaceChar c)), mStr "level", mBound],
    mSeqs [mBound, mStr "no", mPlus isSpaceChar, mStr "experience", mBound],
    mSeqs [mBound, mStr "0", mOpt (mStr "+"), mStar isSpaceChar,
           mStr "year", mOpt (mStr "s"), mBound] ]

/-- Source predicate `experience_ok` (lines 145-165): keyword hit or any fixed
regex matches the lowercased text. -/
def experience_ok (text : String) : Bool :=
  contains_any text EXP_KEYWORDS || expPatterns.any (fun p => reSearch p (lowerStr text))

example : experience_ok "Fresher opportunity" = true := by decide
example : experience_ok "0-6 months experience required" = true := by decide
example : experience_ok "Entry Level Developer" = true := by decide
example : experience_ok "No experience necessary" = true := by decide
example : experience_ok "0+ years exp ok" = true := by decide
example : experience_ok "5 years experience required" = false := by decide

/-! Provider items and normalization (`parse_jsearch_item`). -/

/-- A JSON scalar as it can appear in the identifier and timestamp
fields of a provider item. -/
inductive JVal where
  | s (v : String)
  | n (v : Int)
  | b (v : Bool)
  | null
deriving DecidableEq

/-- Python truthiness of `item.get(field)` for a possibly missing JSON
scalar. -/
def truthy : Option JVal → Bool
  | none => false
  | some (JVal.s v) => v ≠ ""
  | some (JVal.n v) => v ≠ 0
  | some (JVal.b v) => v
  | some JVal.null => false

/-- Python `a or b` on `item.get` results. -/
def pyOr (a b : Option JVal) : Option JVal := if truthy a then a else b

/-- Python `str(v)` for a JSON scalar. -/
def pyStr : JVal → String
  | JVal.s v => v
  | JVal.n v => toString v
  | JVal.b v => if v then "True" else "False"
  | JVal.null => "None"

/-- Accumulate decimal digits; `none` when a non-digit appears or no
digit was seen. -/
def parseDigits : List Char → Option Nat → Option Nat
  | [], acc => acc
  | c :: cs, acc =>
      if c.isDigit then parseDigits cs (some ((acc.getD 0) * 10 + (c.toNat - 48)))
      else none

/-- Strip surrounding whitespace. -/
def stripSpaces (cs : List Char) : List Char :=
  ((cs.dropWhile isSpaceChar).reverse.dropWhile isSpaceChar).reverse

/-- Python `int(str)`: optional surrounding whitespace, optional sign,
then at least one decimal digit; `none` models the ValueError. -/
def pyIntOfStr (s : String) : Option Int :=
  match stripSpaces s.data with
  | '-' :: rest => (parseDigits rest none).map (fun n => -(n : Int))
  | '+' :: rest => (parseDigits rest none).map (fun n => (n : Int))
  | cs => (parseDigits cs none).map (fun n => (n : Int))

/-- Python `int(v)`: `none` models the raised conversion error (which the
source catches, falling back to 0). -/
def toIntCoerce : JVal → Option Int
  | JVal.s v => pyIntOfStr v
  | JVal.n v => some v
  | JVal.b v => some (if v then 1 else 0)
  | JVal.null => none

/-- Truthiness of a possibly missing string field. -/
def sTruthy : Option String → Bool
  | none => false
  | some s => s ≠ ""

/-- Python `(a or b or "")` over two optional string fields. -/
def strOr2 (a b : Option String) : String :=
  if sTruthy a then a.getD "" else if sTruthy b then b.getD "" else ""

/-- A raw provider item: the recognized fields of the heterogeneous
JSearch response shape, each possibly absent. -/
structure Item where
  job_id : Option JVal
  job_posting_id : Option JVal
  id : Option JVal
  job_title : Option String
  title : Option String
  employer_name : Option String
  company_name : Option String
  job_city : Option String
  job_location : Option String
  job_country : Option String
  job_state : Option String
  job_is_remote : Bool
  job_description : Option String
  description : Option String
  job_apply_link : Option String
  job_google_link : Option String
  job_posted_at_timestamp : Option JVal
deriving DecidableEq

/-- The canonical job record produced by normalization (source lines
127-136); `source` is always "jsearch". -/
structure Job where
  source : String
  external_id : Option String
  title : String
  company : String
  location : String
  description : String
  url : String
  posted_at_utc : Int
deriving DecidableEq

/-- The location fallback chain of `parse_jsearch_item` (source line
117): city, else location, else country, else state, else "Remote" when
the remote flag is set, else empty. -/
def locationChain (it : Item) : String :=
  if sTruthy it.job_city then it.job_city.getD ""
  else if sTruthy it.job_location then it.job_location.getD ""
  else if sTruthy it.job_country then it.job_country.getD ""
  else if sTruthy it.job_state then it.job_state.getD ""
  else if it.job_is_remote then "Remote"
  else ""

/-- Source function `parse_jsearch_item` (lines 112-136). -/
def parse_jsearch_item (it : Item) : Job :=
  let jid := pyOr it.job_id (pyOr it.job_posting_id it.id)
  let external_id := if truthy jid then (jid.map pyStr) else none
  let ts :=
    if truthy it.job_posted_at_timestamp then
      match it.job_posted_at_timestamp with
      | some v => (toIntCoerce v).getD 0
      | none => 0
    else 0
  { source := "jsearch",
    external_id := external_id,
    title := (strOr2 it.job_title it.title).trim,
    company := (strOr2 it.employer_name it.company_name).trim,
    location := (locationChain it).trim,
    description := (strOr2 it.job_description it.description).trim,
    url := strOr2 it.job_apply_link it.job_google_link,
    posted_at_utc := ts }

/-- Source predicate `posted_recent` (lines 173-178) with the wall clock injected:
false on a falsy (zero) timestamp, else the age in hours is compared to
the maximum.  Exact rational arithmetic stands in for Python floats. -/
def posted_recent (posted_ts : Int) (max_age_hours : ℚ) (now : Int) : Bool :=
  if posted_ts = 0 then false
  else decide ((((now : ℚ) - (posted_ts : ℚ)) / 3600) ≤ max_age_hours)

/-- The text blob the pipeline filters on (source line 280): title,
description, company and location joined by single spaces. -/
def text_blob (j : Job) : String :=
  j.title ++ (" " ++ (j.description ++ (" " ++ (j.company ++ (" " ++ j.location)))))

/-- One iteration of the fetch loop body (source lines 278-289): parse
the raw item, then keep it only when all four predicates pass, mirroring
the `continue` chain. -/
def collectItem (maxAge : ℚ) (now : Int) (acc : List Job) (item : Item) : List Job :=
  let job := parse_jsearch_item item
  let blob := text_blob job
  if role_ok blob = false then acc
  else if skills_ok blob = false then acc
  else if experience_ok blob = false then acc
  else if posted_recent job.posted_at_utc maxAge now = false then acc
  else acc ++ [job]

/-- The whole collection pass over a page of raw items. -/
def collectItems (maxAge : ℚ) (now : Int) (items : List Item) : List Job :=
  items.foldl (collectItem maxAge now) []

/-! The deduplication store: the single `jobs` table with its two unique
indexes (source lines 69-90), inserts via INSERT OR IGNORE (lines
183-203) and the digest query (lines 205-214). -/

/-- A stored row of the `jobs` table.  The insert statement always binds
strings for the text columns, so only `external_id` is nullable. -/
structure Row where
  source : String
  external_id : Option String
  title : String
  company : String
  location : String
  url : String
  posted_at_utc : Int
  description : String
  created_at_utc : Int
deriving DecidableEq

/-- The row `save_jobs` binds for a job at insertion time `now`. -/
def mkRow (j : Job) (now : Int) : Row :=
  { source := j.source, external_id := j.external_id, title := j.title,
    company := j.company, location := j.location, url := j.url,
    posted_at_utc := j.posted_at_utc, description := j.description,
    created_at_utc := now }

/-- An existing row conflicts with an incoming record on one of the two
unique indexes.  SQLite treats NULLs in a unique index as distinct, so
`uq_jobs_source_external` only fires for a non-null external id. -/
def conflictsJ (r : Row) (j : Job) : Prop :=
  (j.external_id ≠ none ∧ r.source = j.source ∧ r.external_id = j.external_id)
  ∨ (r.title = j.title ∧ r.company = j.company ∧ r.location = j.location ∧ r.url = j.url)

instance (r : Row) (j : Job) : Decidable (conflictsJ r j) := by
  unfold conflictsJ; infer_instance

/-- INSERT OR IGNORE of one record: a no-op when either unique index is
violated, else the row is appended; the flag is the SQLite rowcount. -/
def insert_if_new (db : List Row) (j : Job) (now : Int) : List Row × Bool :=
  if ∃ r ∈ db, conflictsJ r j then (db, false) else (db ++ [mkRow j now], true)

/-- Source function `save_jobs` (lines 183-203): fold the insert over the batch,
counting the genuinely new rows. -/
def save_jobs (db : List Row) (jobs : List Job) (now : Int) : List Row × Nat :=
  jobs.foldl
    (fun acc j =>
      let p := insert_if_new acc.1 j now
      (p.1, acc.2 + if p.2 then 1 else 0))
    (db, 0)

/-- First uniqueness invariant: no two rows share `(source, external_id)`
with a non-null external id. -/
def UniqueExt (db : List Row) : Prop :=
  List.Pairwise
    (fun a b => a.external_id = none ∨ ¬(a.source = b.source ∧ a.external_id = b.external_id))
    db

/-- Second uniqueness invariant: no two rows share the 4-tuple
`(title, company, location, url)`. -/
def UniqueFallback (db : List Row) : Prop :=
  List.Pairwise
    (fun a b => ¬(a.title = b.title ∧ a.company = b.company ∧
                  a.location = b.location ∧ a.url = b.url))
    db

/-- A stored row carries exactly the data of a given record. -/
def matchesJob (r : Row) (j : Job) : Prop :=
  r.source = j.source ∧ r.external_id = j.external_id ∧ r.title = j.title ∧
  r.company = j.company ∧ r.location = j.location ∧ r.url = j.url ∧
  r.posted_at_utc = j.posted_at_utc ∧ r.description = j.description

instance (r : Row) (j : Job) : Decidable (matchesJob r j) := by
  unfold matchesJob; infer_instance

/-- The WHERE clause of the digest query. -/
def createdSince (since : Int) (r : Row) : Bool := decide (since ≤ r.created_at_utc)

/-- The ORDER BY relation of the digest query: `posted_at_utc` descending. -/
def postedDesc (a b : Row) : Prop := b.posted_at_utc ≤ a.posted_at_utc

instance : DecidableRel postedDesc := fun a b => by
  unfold postedDesc; infer_instance

instance : IsTotal Row postedDesc :=
  ⟨fun a b => (Int.le_total b.posted_at_utc a.posted_at_utc).imp id id⟩

instance : IsTrans Row postedDesc :=
  ⟨fun _ _ _ hab hbc => le_trans hbc hab⟩

/-- The rows selected by `fetch_unsent_jobs_since`: filter on
`created_at_utc >= since`, order by `posted_at_utc` descending, cap at
`limit`. -/
def fetchRows (db : List Row) (since : Int) (limit : Nat) : List Row :=
  (List.insertionSort postedDesc (db.filter (createdSince since))).take limit

/-- The projected result tuple of the SELECT (title, company, location,
url, posted_at_utc). -/
def toEmailRow (r : Row) : String × String × String × String × Int :=
  (r.title, r.company, r.location, r.url, r.posted_at_utc)

/-- Source function `fetch_unsent_jobs_since` (lines 205-214). -/
def fetch_unsent_jobs_since (db : List Row) (since : Int) (limit : Nat) :
    List (String × String × String × String × Int) :=
  (fetchRows db since limit).map toEmailRow

/-! In-memory deduplication (source lines 296-301): an insertion-ordered
dict keyed by external id when truthy, else by the 4-tuple. -/

/-- A dict key of the in-memory dedup pass. -/
inductive DedupKey where
  | ext (s : String)
  | tup (title company location url : String)
deriving DecidableEq

/-- Key expression `j.get("external_id") or (title, company, location, url)`: the
or-falls-through when the external id is absent or empty. -/
def dkey (j : Job) : DedupKey :=
  match j.external_id with
  | some s => if s = "" then DedupKey.tup j.title j.company j.location j.url else DedupKey.ext s
  | none => DedupKey.tup j.title j.company j.location j.url

/-- Assignment `unique[key] = j` on an insertion-ordered association list: replace
in place when the key exists, else append. -/
def upsert : List (DedupKey × Job) → DedupKey → Job → List (DedupKey × Job)
  | [], k, j => [(k, j)]
  | (k0, j0) :: rest, k, j =>
      if k0 = k then (k, j) :: rest else (k0, j0) :: upsert rest k j

/-- One step of the dedup loop. -/
def dedupStep (acc : List (DedupKey × Job)) (j : Job) : List (DedupKey × Job) :=
  upsert acc (dkey j) j

/-- Value list `list(unique.values())` after the dedup loop. -/
def dedup_jobs (collected : List Job) : List Job :=
  (collected.foldl dedupStep []).map Prod.snd

/-- The last element of the fetch order that carries a given key (the
dict value that survives). -/
def lastWith (k : DedupKey) (l : List Job) : Option Job :=
  l.foldl (fun acc j => if dkey j = k then some j else acc) none

/-- Dict lookup on the association list. -/
def lookupK : List (DedupKey × Job) → DedupKey → Option Job
  | [], _ => none
  | (k0, j0) :: rest, k => if k0 = k then some j0 else lookupK rest k

/-! Digest rendering (source lines 219-240): the `fmt_time` helper
converts epoch seconds to the fixed UTC+5:30 offset and formats them as
`DD Mon YYYY, HH:MM AM/PM IST`; each row is the f-string of line 239.
The Gregorian calendar arithmetic of `datetime` is modelled over epoch
seconds (the provider timestamps are nonnegative). -/

/-- Gregorian leap-year rule. -/
def isLeap (y : Nat) : Bool := (y % 4 == 0 && y % 100 != 0) || y % 400 == 0

/-- Month lengths for a (non-)leap year. -/
def monthLengths (leap : Bool) : List Nat :=
  [31, if leap then 29 else 28, 31, 30, 31, 30, 31, 31, 30, 31, 30, 31]

/-- Days in a Gregorian year. -/
def daysInYear (y : Nat) : Nat := if isLeap y then 366 else 365

/-- Walk whole years forward from `y` until fewer than a year of days
remains; the fuel argument makes the recursion structural (any fuel
`> d` suffices since every step consumes at least 365 days). -/
def yearFrom (fuel : Nat) (y d : Nat) : Nat × Nat :=
  match fuel with
  | 0 => (y, d)
  | fuel + 1 => if d < daysInYear y then (y, d) else yearFrom fuel (y + 1) (d - daysInYear y)

/-- Walk the month-length table, returning the 1-based month and the
0-based day of month. -/
def monthFrom : List Nat → Nat → Nat → Nat × Nat
  | [], m, d => (m, d)
  | len :: rest, m, d => if d < len then (m, d) else monthFrom rest (m + 1) (d - len)

/-- Month abbreviations of `strftime %b`. -/
def monthNames : List String :=
  ["Jan", "Feb", "Mar", "Apr", "May", "Jun",
   "Jul", "Aug", "Sep", "Oct", "Nov", "Dec"]

/-- Abbreviation of a 1-based month number. -/
def monthName (m : Nat) : String := monthNames.getD (m - 1) ""

/-- Zero-padded two-digit rendering (`%d`, `%I`, `%M`). -/
def pad2 (n : Nat) : String := if n < 10 then "0" ++ toString n else toString n

/-- Seconds since the epoch at the UTC+5:30 offset (the conversion of
source line 234 for the nonnegative provider timestamps). -/
def istT (ts : Int) : Nat := (ts + 19800).toNat

/-- Whole days at the UTC+5:30 offset. -/
def istDays (ts : Int) : Nat := istT ts / 86400

/-- Seconds into the UTC+5:30 day. -/
def istSod (ts : Int) : Nat := istT ts % 86400

/-- Year and day-of-year of the shifted instant. -/
def istYD (ts : Int) : Nat × Nat := yearFrom (istDays ts + 1) 1970 (istDays ts)

/-- 1-based month and 0-based day-of-month of the shifted instant. -/
def istMD (ts : Int) : Nat × Nat :=
  monthFrom (monthLengths (isLeap (istYD ts).1)) 1 (istYD ts).2

/-- Hour of the shifted day. -/
def istHour (ts : Int) : Nat := istSod ts / 3600

/-- Minute of the shifted day (`%M`). -/
def istMin (ts : Int) : Nat := istSod ts % 3600 / 60

/-- 12-hour clock value (`%I`). -/
def istH12 (ts : Int) : Nat := if istHour ts % 12 = 0 then 12 else istHour ts % 12

/-- Format directive `%p`. -/
def istAmPm (ts : Int) : String := if istHour ts < 12 then "AM" else "PM"

/-- Source helper `fmt_time` (lines 229-235): empty on the falsy timestamp 0,
else the instant shifted to UTC+5:30 rendered as
`DD Mon YYYY, HH:MM AM/PM IST`. -/
def fmt_time (ts : Int) : String :=
  if ts = 0 then ""
  else
    pad2 ((istMD ts).2 + 1) ++ (" " ++ (monthName (istMD ts).1 ++ (" " ++
      (toString (istYD ts).1 ++ (", " ++ (pad2 (istH12 ts) ++ (":" ++
        (pad2 (istMin ts) ++ (" " ++ (istAmPm ts ++ " IST"))))))))))

/-- A single-quote character, used by the row template. -/
def sq : String := (Char.ofNat 39).toString

/-- One digest table row (the f-string of source line 239), written as a
right-nested concatenation. -/
def render_row (title company location url : String) (ts : Int) : String :=
  "<tr><td>" ++ (title ++ ("</td><td>" ++ (company ++ ("</td><td>" ++
    (location ++ ("</td><td><a " ++ ("href=" ++ (sq ++ (url ++ (sq ++
      (" " ++ ("target=" ++ (sq ++ ("_blank" ++ (sq ++ (" " ++ ("rel=" ++
        (sq ++ ("noopener" ++ (sq ++ (">Apply</a>" ++ ("</td><td>" ++
          (fmt_time ts ++ "</td></tr>")))))))))))))))))))))))

/-- The built-in fallback template of `render_email_html` (source line
227). -/
def fallbackTemplate : String :=
  "<html><body><h3>New jobs</h3><table border=\"1\" cellpadding=\"6\"><thead><tr><th>Title</th><th>Company</th><th>Location</th><th>Apply</th><th>Posted</th></tr></thead><tbody>\x7b\x7bROWS\x7d\x7d</tbody></table></body></html>"

/-- Source function `render_email_html` (lines 219-240) with the template-file
read modelled as an optional load result: on failure the built-in
template is used, and the placeholder is replaced by the newline-joined
rows. -/
def render_email_html (tplLoaded : Option String)
    (rows : List (String × String × String × String × Int)) : String :=
  let tpl := tplLoaded.getD fallbackTemplate
  let rowsHtml := rows.map (fun r => render_row r.1 r.2.1 r.2.2.1 r.2.2.2.1 r.2.2.2.2)
  tpl.replace "\x7b\x7bROWS\x7d\x7d" (String.intercalate "\n" rowsHtml)

/-! The notifier and the orchestrator error handling (source lines
242-336).  Exceptions are modelled by `Except`: a thrown Python
exception is an `Except.error` propagating to the nearest handler. -/

/-- The distinguishable error sources of one run. -/
inductive RunErr where
  | dbInit
  | mail
  | other
deriving DecidableEq

/-- What `send_email` did. -/
inductive SendOutcome where
  | skippedNoHostLoggedError
  | delivered
deriving DecidableEq

/-- Source function `send_email` (lines 242-257): with an unconfigured host it
logs an error and returns (never raises); otherwise SMTP delivery either
succeeds or raises to the caller. -/
def send_email_model (smtpHost : String) (transportOk : Bool) :
    Except RunErr SendOutcome :=
  if smtpHost = "" then Except.ok SendOutcome.skippedNoHostLoggedError
  else if transportOk then Except.ok SendOutcome.delivered
  else Except.error RunErr.mail

/-- The digest/notify tail of a run (source lines 306-316): select the
window, and send only when it is nonempty.  The store is read, never
written, in this phase. -/
def notify_phase (smtpHost : String) (transportOk : Bool) (db : List Row)
    (since : Int) (limit : Nat) : Except RunErr (List Row × Option SendOutcome) :=
  let rows := fetch_unsent_jobs_since db since limit
  if rows.isEmpty then Except.ok (db, none)
  else
    match send_email_model smtpHost transportOk with
    | Except.error e => Except.error e
    | Except.ok out => Except.ok (db, some out)

/-- Which steps of a run raise, for the control-flow model of
`search_and_notify`. -/
structure RunEnv where
  initDbFails : Bool
  mailFails : Bool
  otherFails : Bool
deriving DecidableEq

/-- The observable outcome of one run of `search_and_notify`. -/
inductive RunLog where
  | completed
  | caughtLogged (e : RunErr)
deriving DecidableEq

/-- The body of the `try` block of `search_and_notify` (source lines
263-316): `init_db` runs first, inside the block, so its exception
reaches the same handler as everything later. -/
def run_body (env : RunEnv) : Except RunErr Unit :=
  if env.initDbFails then Except.error RunErr.dbInit
  else if env.otherFails then Except.error RunErr.other
  else if env.mailFails then Except.error RunErr.mail
  else Except.ok ()

/-- Source function `search_and_notify` (lines 262-319): the per-cycle catch-all
turns every exception of the body into a logged, swallowed outcome, so
the function itself never raises. -/
def search_and_notify_model (env : RunEnv) : Except RunErr RunLog :=
  match run_body env with
  | Except.ok _ => Except.ok RunLog.completed
  | Except.error e => Except.ok (RunLog.caughtLogged e)

/-- Source function `main` (lines 321-336): the first run, then scheduler
startup, which is not wrapped in any handler. -/
def main_model (env : RunEnv) (schedulerFails : Bool) : Except String RunLog :=
  match search_and_notify_model env with
  | Except.error _ => Except.error "run raised"
  | Except.ok log => if schedulerFails then Except.error "scheduler startup" else Except.ok log

/-! ### Claims -/

/-- C5: under the default experience keyword configuration,
`experience_ok` accepts "Fresher opportunity", "0-6 months experience
required", "Entry Level Developer", "No experience necessary" and
"0+ years exp ok", and rejects "5 years experience required". -/
theorem C5_experience_ok_vectors :
    experience_ok "Fresher opportunity" = true
  ∧ experience_ok "0-6 months experience required" = true
  ∧ experience_ok "Entry Level Developer" = true
  ∧ experience_ok "No experience necessary" = true
  ∧ experience_ok "0+ years exp ok" = true
  ∧ experience_ok "5 years experience required" = false := by
  refine ⟨?_, ?_, ?_, ?_, ?_, ?_⟩ <;> decide

/-- C4: `posted_recent` is false on the falsy timestamp 0, and for a
nonzero timestamp is true exactly when the age in hours is at most the
maximum; with a 6-hour maximum it accepts a timestamp within 6 hours of
the injected clock and rejects one exactly 7 hours old. -/
theorem C4_posted_recent_spec (now ts : Int) (maxAge : ℚ) :
    posted_recent 0 maxAge now = false
  ∧ (ts ≠ 0 → (posted_recent ts maxAge now = true ↔
       ((now : ℚ) - (ts : ℚ)) / 3600 ≤ maxAge))
  ∧ (ts ≠ 0 → 0 ≤ now - ts → now - ts ≤ 6 * 3600 → posted_recent ts 6 now = true)
  ∧ (ts ≠ 0 → now - ts = 7 * 3600 → posted_recent ts 6 now = false) := by
  refine ⟨by simp [posted_recent], ?_, ?_, ?_⟩
  · intro h
    rw [posted_recent, if_neg h]
    exact decide_eq_true_iff
  · intro h _ h6
    rw [posted_recent, if_neg h, decide_eq_true_eq,
        div_le_iff₀ (by norm_num : (0:ℚ) < 3600)]
    have h6' : now - ts ≤ 21600 := by omega
    have hc : ((now : ℚ) - (ts : ℚ)) ≤ 21600 := by exact_mod_cast h6'
    linarith
  · intro h h7
    rw [posted_recent, if_neg h, decide_eq_false_iff_not,
        div_le_iff₀ (by norm_num : (0:ℚ) < 3600)]
    have hc : ((now : ℚ) - (ts : ℚ)) = 25200 := by exact_mod_cast h7
    linarith

/-- Witness for C4 at a concrete clock: now = 1000000, a timestamp one
hour old is accepted, the zero timestamp and a 7-hour-old one are not. -/
theorem C4_posted_recent_spec_witness :
    posted_recent 0 6 1000000 = false
  ∧ posted_recent 996400 6 1000000 = true
  ∧ posted_recent 974800 6 1000000 = false :=
  ⟨(C4_posted_recent_spec 1000000 996400 6).1,
   (C4_posted_recent_spec 1000000 996400 6).2.2.1 (by decide) (by decide) (by decide),
   (C4_posted_recent_spec 1000000 974800 6).2.2.2 (by decide) (by decide)⟩

/-- C3: one iteration of the fetch loop appends the parsed job to the
collected list exactly when all four predicates (role, skills,
experience on the concatenated text blob, and recency on the posted
timestamp) hold; otherwise it leaves the list unchanged. -/
theorem C3_pipeline_filter (maxAge : ℚ) (now : Int) (acc : List Job) (item : Item) :
    (collectItem maxAge now acc item = acc ++ [parse_jsearch_item item]
      ↔ (role_ok (text_blob (parse_jsearch_item item)) = true
        ∧ skills_ok (text_blob (parse_jsearch_item item)) = true
        ∧ experience_ok (text_blob (parse_jsearch_item item)) = true
        ∧ posted_recent (parse_jsearch_item item).posted_at_utc maxAge now = true))
  ∧ (collectItem maxAge now acc item = acc
      ∨ collectItem maxAge now acc item = acc ++ [parse_jsearch_item item]) := by
  cases hr : role_ok (text_blob (parse_jsearch_item item)) <;>
    cases hs : skills_ok (text_blob (parse_jsearch_item item)) <;>
      cases he : experience_ok (text_blob (parse_jsearch_item item)) <;>
        cases hp : posted_recent (parse_jsearch_item item).posted_at_utc maxAge now <;>
          simp [collectItem, hr, hs, he, hp]

/-- C9: normalization is total on the recognized field shapes: with all
three identifier fields absent `external_id` is `none`, and a missing or
non-coercible posted timestamp falls back to 0. -/
theorem C9_parse_fallbacks (it : Item) :
    (it.job_id = none → it.job_posting_id = none → it.id = none →
      (parse_jsearch_item it).external_id = none)
  ∧ (it.job_posted_at_timestamp = none → (parse_jsearch_item it).posted_at_utc = 0)
  ∧ (∀ v, it.job_posted_at_timestamp = some v → toIntCoerce v = none →
      (parse_jsearch_item it).posted_at_utc = 0) := by
  refine ⟨?_, ?_, ?_⟩
  · intro h1 h2 h3
    simp [parse_jsearch_item, pyOr, h1, h2, h3, truthy]
  · intro h
    simp [parse_jsearch_item, h, truthy]
  · intro v hv hc
    by_cases ht : truthy it.job_posted_at_timestamp
    · simp [parse_jsearch_item, hv, hc, ht]
    · simp [parse_jsearch_item, ht]

/-- A provider item with every field absent. -/
def itemEmpty : Item :=
  ⟨none, none, none, none, none, none, none, none, none, none, none, false,
   none, none, none, none, none⟩

/-- A provider item whose posted timestamp is a non-numeric string. -/
def itemBadTs : Item :=
  ⟨none, none, none, none, none, none, none, none, none, none, none, false,
   none, none, none, none, some (JVal.s "soon")⟩

/-- Witness for C9: the empty item normalizes to a null external id and
a zero timestamp, and a malformed timestamp also falls back to 0. -/
theorem C9_parse_fallbacks_witness :
    (parse_jsearch_item itemEmpty).external_id = none
  ∧ (parse_jsearch_item itemEmpty).posted_at_utc = 0
  ∧ (parse_jsearch_item itemBadTs).posted_at_utc = 0 :=
  ⟨(C9_parse_fallbacks itemEmpty).1 rfl rfl rfl,
   (C9_parse_fallbacks itemEmpty).2.1 rfl,
   (C9_parse_fallbacks itemBadTs).2.2 (JVal.s "soon") rfl (by decide)⟩

/-- C6 counterexample: a run on which `init_db` raises IS absorbed by
the per-cycle catch-all of `search_and_notify` — the run returns
normally with the error logged, and `main` proceeds to scheduler
startup; the claimed fatality does not occur. -/
theorem C6_init_db_absorbed_cex :
    search_and_notify_model ⟨true, false, false⟩
      = Except.ok (RunLog.caughtLogged RunErr.dbInit)
  ∧ main_model ⟨true, false, false⟩ false
      = Except.ok (RunLog.caughtLogged RunErr.dbInit) :=
  ⟨rfl, rfl⟩

/-- C6 (amended): every exception of the run body — the store
initialization included, since `init_db` runs inside the guarded block —
is caught, logged and swallowed, so `search_and_notify` never raises and
the process survives every run error; only a scheduler startup failure
in `main` escapes. -/
theorem C6_run_errors_swallowed :
    (∀ env, ∃ log, search_and_notify_model env = Except.ok log
        ∧ main_model env false = Except.ok log)
  ∧ (∀ mf _of, search_and_notify_model ⟨true, mf, _of⟩
        = Except.ok (RunLog.caughtLogged RunErr.dbInit))
  ∧ (∀ env, main_model env true = Except.error "scheduler startup") := by
  refine ⟨?_, ?_, ?_⟩
  · intro env
    cases h : run_body env with
    | ok u =>
        exact ⟨RunLog.completed, by simp [search_and_notify_model, h],
               by simp [main_model, search_and_notify_model, h]⟩
    | error e =>
        exact ⟨RunLog.caughtLogged e, by simp [search_and_notify_model, h],
               by simp [main_model, search_and_notify_model, h]⟩
  · intro mf _of
    rfl
  · intro env
    cases h : run_body env <;> simp [main_model, search_and_notify_model, h]

/-! Store lemmas for C1 and C8. -/

lemma insert_of_no_conflict (db : List Row) (j : Job) (now : Int)
    (h : ∀ r ∈ db, ¬ conflictsJ r j) :
    insert_if_new db j now = (db ++ [mkRow j now], true) := by
  have hne : ¬ ∃ r ∈ db, conflictsJ r j := by
    intro hcon
    obtain ⟨r, hr, hc⟩ := hcon
    exact h r hr hc
  rw [insert_if_new, if_neg hne]

lemma conflictsJ_mkRow (j : Job) (now : Int) : conflictsJ (mkRow j now) j :=
  Or.inr ⟨rfl, rfl, rfl, rfl⟩

lemma matchesJob_mkRow (j : Job) (now : Int) : matchesJob (mkRow j now) j :=
  ⟨rfl, rfl, rfl, rfl, rfl, rfl, rfl, rfl⟩

lemma conflictsJ_of_matches {r : Row} {j : Job} (h : matchesJob r j) : conflictsJ r j :=
  Or.inr ⟨h.2.2.1, h.2.2.2.1, h.2.2.2.2.1, h.2.2.2.2.2.1⟩

lemma insert_preserves_uniqueExt (db : List Row) (j : Job) (now : Int)
    (h : UniqueExt db) : UniqueExt (insert_if_new db j now).1 := by
  rw [insert_if_new]
  split
  · exact h
  · next hno =>
    have hno' : ∀ r ∈ db, ¬ conflictsJ r j := by
      intro r hr hc
      exact hno ⟨r, hr, hc⟩
    rw [UniqueExt, List.pairwise_append]
    refine ⟨h, List.pairwise_singleton _ _, ?_⟩
    intro a ha b hb
    have hbeq : b = mkRow j now := by simpa using hb
    subst hbeq
    by_cases hea : a.external_id = none
    · exact Or.inl hea
    · refine Or.inr ?_
      rintro ⟨hsrc, hext⟩
      apply hno' a ha
      refine Or.inl ⟨?_, hsrc, hext⟩
      intro hjn
      exact hea (hext.trans hjn)

lemma insert_preserves_uniqueFallback (db : List Row) (j : Job) (now : Int)
    (h : UniqueFallback db) : UniqueFallback (insert_if_new db j now).1 := by
  rw [insert_if_new]
  split
  · exact h
  · next hno =>
    have hno' : ∀ r ∈ db, ¬ conflictsJ r j := by
      intro r hr hc
      exact hno ⟨r, hr, hc⟩
    rw [UniqueFallback, List.pairwise_append]
    refine ⟨h, List.pairwise_singleton _ _, ?_⟩
    intro a ha b hb
    have hbeq : b = mkRow j now := by simpa using hb
    subst hbeq
    rintro ⟨ht, hc, hl, hu⟩
    exact hno' a ha (Or.inr ⟨ht, hc, hl, hu⟩)

/-- C1 (amended): from any store state satisfying both uniqueness
invariants in which no existing row conflicts with the record on either
unique key, inserting the same record twice yields `inserted = true`
then `inserted = false`, leaves exactly one row carrying the data of
the record, and changes nothing on the second call; both invariants are
preserved by every insert unconditionally, and `save_jobs` on a
one-element batch is exactly one `insert_if_new`. -/
theorem C1_insert_idempotent :
    (∀ (db : List Row) (j : Job) (now now2 : Int),
        UniqueExt db → UniqueFallback db → (∀ r ∈ db, ¬ conflictsJ r j) →
        (insert_if_new db j now).2 = true
      ∧ (insert_if_new (insert_if_new db j now).1 j now2).2 = false
      ∧ (insert_if_new (insert_if_new db j now).1 j now2).1 = (insert_if_new db j now).1
      ∧ (insert_if_new db j now).1.countP (fun r => decide (matchesJob r j)) = 1)
  ∧ (∀ (db : List Row) (j : Job) (now : Int),
        UniqueExt db → UniqueExt (insert_if_new db j now).1)
  ∧ (∀ (db : List Row) (j : Job) (now : Int),
        UniqueFallback db → UniqueFallback (insert_if_new db j now).1)
  ∧ (∀ (db : List Row) (j : Job) (now : Int),
        save_jobs db [j] now
          = ((insert_if_new db j now).1, if (insert_if_new db j now).2 then 1 else 0)) := by
  refine ⟨?_, insert_preserves_uniqueExt, insert_preserves_uniqueFallback, ?_⟩
  · intro db j now now2 _ _ hno
    rw [insert_of_no_conflict db j now hno]
    have hdup : ∃ r ∈ db ++ [mkRow j now], conflictsJ r j :=
      ⟨mkRow j now, by simp, conflictsJ_mkRow j now⟩
    refine ⟨rfl, ?_, ?_, ?_⟩
    · rw [insert_if_new, if_pos hdup]
    · rw [insert_if_new, if_pos hdup]
    · rw [List.countP_append]
      have h0 : (db.countP (fun r => decide (matchesJob r j))) = 0 := by
        rw [List.countP_eq_zero]
        intro r hr
        simp only [decide_eq_true_eq]
        intro hm
        exact hno r hr (conflictsJ_of_matches hm)
      have h1 : ([mkRow j now].countP (fun r => decide (matchesJob r j))) = 1 := by
        simp [List.countP_cons, matchesJob_mkRow j now]
      rw [h0, h1]
  · intro db j now
    simp [save_jobs]

/-- A concrete job record used by the store witnesses. -/
def j0 : Job :=
  ⟨"jsearch", some "x1", "Frontend Dev", "Acme", "Remote", "react role",
   "http://apply", 1700000000⟩

/-- C1 counterexample: a store that already satisfies both uniqueness
invariants and contains the record makes the first of the two inserts
return `inserted = false`, so the universal quantification of the claim over
all invariant-satisfying store states fails. -/
theorem C1_insert_idempotent_cex :
    UniqueExt [mkRow j0 100] ∧ UniqueFallback [mkRow j0 100]
  ∧ (insert_if_new [mkRow j0 100] j0 200).2 = false := by
  refine ⟨?_, ?_, ?_⟩
  · simp [UniqueExt]
  · simp [UniqueFallback]
  · rw [insert_if_new, if_pos ⟨mkRow j0 100, by simp, conflictsJ_mkRow j0 100⟩]

/-- Witness for C1 on the empty store and a concrete record. -/
theorem C1_insert_idempotent_witness :
    (insert_if_new [] j0 100).2 = true
  ∧ (insert_if_new (insert_if_new [] j0 100).1 j0 200).2 = false
  ∧ (insert_if_new [] j0 100).1.countP (fun r => decide (matchesJob r j0)) = 1 := by
  have h := C1_insert_idempotent.1 [] j0 100 200 (by simp [UniqueExt])
    (by simp [UniqueFallback]) (by simp)
  exact ⟨h.1, h.2.1, h.2.2.2⟩

/-- C8: with an unconfigured mail host `send_email` logs and returns
without raising; the notify phase then always completes with the store
untouched, and a run that persisted a genuinely new record still has
that record in the store after the (skipped) notification. -/
theorem C8_no_mail_host_no_crash :
    (∀ ok, send_email_model "" ok = Except.ok SendOutcome.skippedNoHostLoggedError)
  ∧ (∀ ok (db : List Row) (since : Int) (limit : Nat),
        ∃ out, notify_phase "" ok db since limit = Except.ok (db, out))
  ∧ (∀ ok (db : List Row) (j : Job) (now since : Int) (limit : Nat),
        (∀ r ∈ db, ¬ conflictsJ r j) →
        mkRow j now ∈ (save_jobs db [j] now).1
      ∧ ∃ out, notify_phase "" ok (save_jobs db [j] now).1 since limit
          = Except.ok ((save_jobs db [j] now).1, out)) := by
  have hsend : ∀ ok, send_email_model "" ok = Except.ok SendOutcome.skippedNoHostLoggedError := by
    intro ok
    rw [send_email_model, if_pos rfl]
  have hnotify : ∀ ok (db : List Row) (since : Int) (limit : Nat),
      ∃ out, notify_phase "" ok db since limit = Except.ok (db, out) := by
    intro ok db since limit
    rw [notify_phase]
    split
    · exact ⟨none, rfl⟩
    · rw [hsend ok]
      exact ⟨some SendOutcome.skippedNoHostLoggedError, rfl⟩
  refine ⟨hsend, hnotify, ?_⟩
  intro ok db j now since limit hno
  have hsave : save_jobs db [j] now = (db ++ [mkRow j now], 1) := by
    simp [save_jobs, insert_of_no_conflict db j now hno]
  refine ⟨?_, ?_⟩
  · rw [hsave]; simp
  · exact hnotify ok (save_jobs db [j] now).1 since limit

/-- Witness for C8: the empty store plus the concrete record. -/
theorem C8_no_mail_host_no_crash_witness :
    mkRow j0 100 ∈ (save_jobs [] [j0] 100).1
  ∧ ∃ out, notify_phase "" true (save_jobs [] [j0] 100).1 50 80
      = Except.ok ((save_jobs [] [j0] 100).1, out) :=
  C8_no_mail_host_no_crash.2.2 true [] j0 100 50 80 (by simp)

/-! Concrete rows for the digest-window instance of C2: records created
one, three and ten hours before the clock value 1760000000, with a
two-hour window. -/

/-- Row created at now - 1h. -/
def wRow1 : Row := ⟨"jsearch", none, "a", "c1", "l1", "u1", 1759996400, "d", 1759996400⟩

/-- Row created at now - 3h. -/
def wRow2 : Row := ⟨"jsearch", none, "b", "c2", "l2", "u2", 1759989200, "d", 1759989200⟩

/-- Row created at now - 10h. -/
def wRow3 : Row := ⟨"jsearch", none, "c", "c3", "l3", "u3", 1759964000, "d", 1759964000⟩

/-- C2: the digest query keeps exactly the rows with
`created_at_utc >= since`, sorted by `posted_at_utc` descending and
capped at `limit`; when the filtered rows fit under the cap the result
is a permutation of all of them; and on records created 1h/3h/10h ago
with a 2-hour window only the 1-hour-old record is selected. -/
theorem C2_digest_query (db : List Row) (since : Int) (limit : Nat) :
    (∀ r ∈ fetchRows db since limit, since ≤ r.created_at_utc)
  ∧ List.Sorted postedDesc (fetchRows db since limit)
  ∧ (fetchRows db since limit).length ≤ limit
  ∧ ((db.filter (createdSince since)).length ≤ limit →
        (fetchRows db since limit).Perm (db.filter (createdSince since)))
  ∧ fetch_unsent_jobs_since db since limit = (fetchRows db since limit).map toEmailRow
  ∧ fetch_unsent_jobs_since [wRow1, wRow2, wRow3] (1760000000 - 7200) MAX_RESULTS_PER_RUN
      = [toEmailRow wRow1] := by
  refine ⟨?_, ?_, ?_, ?_, rfl, by decide⟩
  · intro r hr
    have h1 : r ∈ List.insertionSort postedDesc (db.filter (createdSince since)) :=
      (List.take_sublist _ _).subset hr
    have h2 : r ∈ db.filter (createdSince since) :=
      (List.perm_insertionSort postedDesc _).subset h1
    have h3 := (List.mem_filter.1 h2).2
    exact of_decide_eq_true h3
  · exact List.Pairwise.sublist (List.take_sublist _ _)
      (List.sorted_insertionSort postedDesc _)
  · exact List.length_take_le _ _
  · intro hlen
    have hsl : (List.insertionSort postedDesc (db.filter (createdSince since))).length ≤ limit := by
      rw [(List.perm_insertionSort postedDesc _).length_eq]
      exact hlen
    rw [fetchRows, List.take_of_length_le hsl]
    exact List.perm_insertionSort postedDesc _

/-- Witness for C2: the under-cap permutation fact at a one-row store. -/
theorem C2_digest_query_witness :
    (fetchRows [wRow1] 0 5).Perm ([wRow1].filter (createdSince 0)) :=
  (C2_digest_query [wRow1] 0 5).2.2.2.1 (by decide)

/-! Lemmas on the in-memory dedup dict for C10. -/

lemma lookupK_upsert (acc : List (DedupKey × Job)) (k0 k : DedupKey) (j : Job) :
    lookupK (upsert acc k0 j) k = if k0 = k then some j else lookupK acc k := by
  induction acc with
  | nil => by_cases h : k0 = k <;> simp [upsert, lookupK, h]
  | cons p rest ih =>
    obtain ⟨k1, j1⟩ := p
    by_cases h1 : k1 = k0 <;> by_cases h2 : k1 = k <;> by_cases h3 : k0 = k <;>
      simp_all [upsert, lookupK]

lemma mem_keys_upsert (acc : List (DedupKey × Job)) (k0 k : DedupKey) (j : Job) :
    k ∈ (upsert acc k0 j).map Prod.fst ↔ k ∈ acc.map Prod.fst ∨ k = k0 := by
  induction acc with
  | nil => simp [upsert]
  | cons p rest ih =>
    obtain ⟨k1, j1⟩ := p
    by_cases h1 : k1 = k0 <;> simp_all [upsert] <;> tauto

lemma nodup_keys_upsert (acc : List (DedupKey × Job)) (k0 : DedupKey) (j : Job)
    (h : (acc.map Prod.fst).Nodup) : ((upsert acc k0 j).map Prod.fst).Nodup := by
  induction acc with
  | nil => simp [upsert]
  | cons p rest ih =>
    obtain ⟨k1, j1⟩ := p
    simp only [List.map_cons, List.nodup_cons] at h
    by_cases h1 : k1 = k0
    · subst h1
      simpa [upsert] using h
    · simp only [upsert, if_neg h1, List.map_cons, List.nodup_cons]
      refine ⟨?_, ih h.2⟩
      rw [mem_keys_upsert]
      rintro (hm | hm)
      · exact h.1 hm
      · exact h1 hm

lemma consistent_upsert (acc : List (DedupKey × Job)) (j : Job)
    (h : ∀ p ∈ acc, p.1 = dkey p.2) :
    ∀ p ∈ upsert acc (dkey j) j, p.1 = dkey p.2 := by
  induction acc with
  | nil => simp [upsert]
  | cons q rest ih =>
    obtain ⟨k1, j1⟩ := q
    by_cases h1 : k1 = dkey j
    · simp only [upsert, if_pos h1]
      intro p hp
      rcases List.mem_cons.1 hp with hp | hp
      · subst hp; rfl
      · exact h p (List.mem_cons_of_mem _ hp)
    · simp only [upsert, if_neg h1]
      intro p hp
      rcases List.mem_cons.1 hp with hp | hp
      · subst hp; exact h (k1, j1) (List.mem_cons_self _ _)
      · exact ih (fun q hq => h q (List.mem_cons_of_mem _ hq)) p hp

lemma dedup_foldl_nodup :
    ∀ (l : List Job) (acc : List (DedupKey × Job)),
      (acc.map Prod.fst).Nodup → ((l.foldl dedupStep acc).map Prod.fst).Nodup := by
  intro l
  induction l with
  | nil => intro acc h; exact h
  | cons j rest ih =>
    intro acc h
    rw [List.foldl_cons]
    exact ih _ (nodup_keys_upsert acc (dkey j) j h)

lemma dedup_foldl_consistent :
    ∀ (l : List Job) (acc : List (DedupKey × Job)),
      (∀ p ∈ acc, p.1 = dkey p.2) → ∀ p ∈ l.foldl dedupStep acc, p.1 = dkey p.2 := by
  intro l
  induction l with
  | nil => intro acc h; exact h
  | cons j rest ih =>
    intro acc h
    rw [List.foldl_cons]
    exact ih _ (consistent_upsert acc j h)

lemma lastWith_foldl (k : DedupKey) :
    ∀ (l : List Job) (a : Option Job),
      List.foldl (fun acc j => if dkey j = k then some j else acc) a l
        = match lastWith k l with
          | some x => some x
          | none => a := by
  intro l
  induction l with
  | nil => intro a; rfl
  | cons j rest ih =>
    intro a
    rw [List.foldl_cons, ih]
    have hR : lastWith k (j :: rest)
        = match lastWith k rest with
          | some x => some x
          | none => if dkey j = k then some j else none := by
      rw [lastWith, List.foldl_cons, ih]
    rw [hR]
    cases hlw : lastWith k rest <;> by_cases hj : dkey j = k <;> simp [hj]

lemma lastWith_cons (k : DedupKey) (j : Job) (rest : List Job) :
    lastWith k (j :: rest)
      = match lastWith k rest with
        | some x => some x
        | none => if dkey j = k then some j else none := by
  rw [lastWith, List.foldl_cons, lastWith_foldl k rest]

lemma lookupK_foldl (k : DedupKey) :
    ∀ (l : List Job) (acc : List (DedupKey × Job)),
      lookupK (l.foldl dedupStep acc) k
        = match lastWith k l with
          | some x => some x
          | none => lookupK acc k := by
  intro l
  induction l with
  | nil => intro acc; rfl
  | cons j rest ih =>
    intro acc
    rw [List.foldl_cons, ih, lastWith_cons]
    have hup : lookupK (dedupStep acc j) k = if dkey j = k then some j else lookupK acc k := by
      rw [dedupStep, lookupK_upsert]
    rw [hup]
    cases hlw : lastWith k rest <;> by_cases hj : dkey j = k <;> simp [hj]

lemma lookupK_of_mem_nodup :
    ∀ (acc : List (DedupKey × Job)) (k : DedupKey) (x : Job),
      (acc.map Prod.fst).Nodup → (k, x) ∈ acc → lookupK acc k = some x := by
  intro acc
  induction acc with
  | nil => intro k x _ hm; cases hm
  | cons p rest ih =>
    obtain ⟨k1, j1⟩ := p
    intro k x hnd hm
    simp only [List.map_cons, List.nodup_cons] at hnd
    rcases List.mem_cons.1 hm with hm | hm
    · injection hm with hk hx
      subst hk; subst hx
      simp [lookupK]
    · by_cases h1 : k1 = k
      · exfalso
        apply hnd.1
        subst h1
        exact List.mem_map.2 ⟨(k1, x), hm, rfl⟩
      · simp only [lookupK, if_neg h1]
        exact ih k x hnd.2 hm

lemma lookupK_mem :
    ∀ (acc : List (DedupKey × Job)) (k : DedupKey) (x : Job),
      lookupK acc k = some x → (k, x) ∈ acc := by
  intro acc
  induction acc with
  | nil => intro k x h; cases h
  | cons p rest ih =>
    obtain ⟨k1, j1⟩ := p
    intro k x h
    by_cases h1 : k1 = k
    · rw [lookupK, if_pos h1] at h
      injection h with hx
      subst h1; subst hx
      exact List.mem_cons_self _ _
    · rw [lookupK, if_neg h1] at h
      exact List.mem_cons_of_mem _ (ih k x h)

lemma lastWith_sound (k : DedupKey) :
    ∀ (l : List Job) (x : Job), lastWith k l = some x → x ∈ l ∧ dkey x = k := by
  intro l
  induction l with
  | nil => intro x h; cases h
  | cons j rest ih =>
    intro x h
    rw [lastWith_cons] at h
    cases hlw : lastWith k rest with
    | some y =>
        rw [hlw] at h
        injection h with hx
        obtain ⟨hm, hk⟩ := ih y hlw
        exact ⟨List.mem_cons_of_mem _ (hx ▸ hm), hx ▸ hk⟩
    | none =>
        rw [hlw] at h
        by_cases hj : dkey j = k
        · rw [if_pos hj] at h
          injection h with hx
          exact ⟨hx ▸ List.mem_cons_self _ _, hx ▸ hj⟩
        · rw [if_neg hj] at h
          cases h

lemma lastWith_of_mem (j : Job) :
    ∀ (l : List Job), j ∈ l → ∃ x, lastWith (dkey j) l = some x := by
  intro l
  induction l with
  | nil => intro h; cases h
  | cons h0 rest ih =>
    intro hm
    rw [lastWith_cons]
    cases hlw : lastWith (dkey j) rest with
    | some y => exact ⟨y, rfl⟩
    | none =>
        rcases List.mem_cons.1 hm with hm0 | hm0
        · refine ⟨h0, ?_⟩
          have hd : dkey h0 = dkey j := by rw [hm0]
          simp [hd]
        · obtain ⟨x, hx⟩ := ih hm0
          rw [hlw] at hx
          simp at hx

/-- C10: the in-memory dedup yields at most one job per composite key
(external id when truthy, else the 4-tuple), every fetched key is
represented, each surviving job comes from the fetch list, and the
survivor for a key is the last occurrence in fetch order. -/
theorem C10_dedup_last_occurrence (collected : List Job) :
    ((dedup_jobs collected).map dkey).Nodup
  ∧ (∀ j ∈ dedup_jobs collected, j ∈ collected ∧ lastWith (dkey j) collected = some j)
  ∧ (∀ j ∈ collected, ∃ x ∈ dedup_jobs collected, dkey x = dkey j) := by
  have hnodup : ((collected.foldl dedupStep []).map Prod.fst).Nodup :=
    dedup_foldl_nodup collected [] (by simp)
  have hcons : ∀ p ∈ collected.foldl dedupStep [], p.1 = dkey p.2 :=
    dedup_foldl_consistent collected [] (by simp)
  refine ⟨?_, ?_, ?_⟩
  · rw [dedup_jobs, List.map_map]
    have : (collected.foldl dedupStep []).map (dkey ∘ Prod.snd)
        = (collected.foldl dedupStep []).map Prod.fst :=
      List.map_congr_left (fun p hp => (hcons p hp).symm)
    rw [this]
    exact hnodup
  · intro j hj
    obtain ⟨p, hpA, hpj⟩ := List.mem_map.1 hj
    have hkey : p.1 = dkey j := by rw [hcons p hpA, hpj]
    have hpeq : p = (dkey j, j) := Prod.ext hkey hpj
    rw [hpeq] at hpA
    have hfind : lookupK (collected.foldl dedupStep []) (dkey j) = some j :=
      lookupK_of_mem_nodup _ (dkey j) j hnodup hpA
    rw [lookupK_foldl (dkey j) collected []] at hfind
    cases hlw : lastWith (dkey j) collected with
    | some x =>
        rw [hlw] at hfind
        injection hfind with hx
        refine ⟨hx ▸ (lastWith_sound (dkey j) collected x hlw).1, ?_⟩
        exact congrArg some hx
    | none =>
        rw [hlw] at hfind
        cases hfind
  · intro j hj
    obtain ⟨x, hx⟩ := lastWith_of_mem j collected hj
    obtain ⟨_, hkx⟩ := lastWith_sound (dkey j) collected x hx
    have hfind : lookupK (collected.foldl dedupStep []) (dkey j) = some x := by
      rw [lookupK_foldl (dkey j) collected [], hx]
    have hmem : (dkey j, x) ∈ collected.foldl dedupStep [] := lookupK_mem _ (dkey j) x hfind
    exact ⟨x, List.mem_map.2 ⟨(dkey j, x), hmem, rfl⟩, hkx⟩

/-- A job with an external id, first page copy. -/
def jd1 : Job := ⟨"jsearch", some "k7", "Backend Dev", "Acme", "Pune", "php", "http://a", 10⟩

/-- A job without an external id. -/
def jd2 : Job := ⟨"jsearch", none, "Web Dev", "Beta", "Delhi", "css", "http://b", 20⟩

/-- The same external id as `jd1` fetched again on a later page. -/
def jd3 : Job := ⟨"jsearch", some "k7", "Backend Developer", "Acme", "Pune", "php+sql", "http://a2", 30⟩

/-- Witness for C10: with a repeated key the keys of the result are
distinct and the later occurrence is the survivor. -/
theorem C10_dedup_last_occurrence_witness :
    ((dedup_jobs [jd1, jd2, jd3]).map dkey).Nodup
  ∧ (jd3 ∈ [jd1, jd2, jd3] ∧ lastWith (dkey jd3) [jd1, jd2, jd3] = some jd3) :=
  ⟨(C10_dedup_last_occurrence [jd1, jd2, jd3]).1,
   (C10_dedup_last_occurrence [jd1, jd2, jd3]).2.1 jd3 (by decide)⟩

/-! Calendar bound lemmas and substring helpers for C7. -/

lemma yearFrom_ge : ∀ (fuel y d : Nat), y ≤ (yearFrom fuel y d).1 := by
  intro fuel
  induction fuel with
  | zero => intro y d; exact le_refl y
  | succ n ih =>
    intro y d
    rw [yearFrom]
    split
    · exact le_refl y
    · exact le_trans (Nat.le_succ y) (ih (y + 1) (d - daysInYear y))

lemma daysInYear_ge (y : Nat) : 365 ≤ daysInYear y := by
  rw [daysInYear]; split <;> omega

lemma yearFrom_lt : ∀ (fuel y d : Nat), d < fuel →
    (yearFrom fuel y d).2 < daysInYear (yearFrom fuel y d).1 := by
  intro fuel
  induction fuel with
  | zero => intro y d h; omega
  | succ n ih =>
    intro y d h
    rw [yearFrom]
    split
    · next hlt => exact hlt
    · next hge =>
      apply ih
      have h365 := daysInYear_ge y
      omega

lemma monthFrom_ge : ∀ (ms : List Nat) (m d : Nat), m ≤ (monthFrom ms m d).1 := by
  intro ms
  induction ms with
  | nil => intro m d; exact le_refl m
  | cons len rest ih =>
    intro m d
    rw [monthFrom]
    split
    · exact le_refl m
    · exact le_trans (Nat.le_succ m) (ih (m + 1) (d - len))

lemma monthFrom_lt : ∀ (ms : List Nat) (m d : Nat), d < ms.sum →
    (monthFrom ms m d).1 < m + ms.length := by
  intro ms
  induction ms with
  | nil => intro m d h; simp at h
  | cons len rest ih =>
    intro m d h
    rw [monthFrom]
    split
    · simp
    · next hge =>
      rw [List.sum_cons] at h
      have := ih (m + 1) (d - len) (by omega)
      simp only [List.length_cons]
      omega

lemma monthFrom_day : ∀ (ms : List Nat) (m d : Nat), (∀ x ∈ ms, x ≤ 31) →
    d < ms.sum → (monthFrom ms m d).2 < 31 := by
  intro ms
  induction ms with
  | nil => intro m d _ h; simp at h
  | cons len rest ih =>
    intro m d hle h
    rw [monthFrom]
    split
    · next hlt =>
      have := hle len (List.mem_cons_self _ _)
      omega
    · next hge =>
      rw [List.sum_cons] at h
      exact ih (m + 1) (d - len) (fun x hx => hle x (List.mem_cons_of_mem _ hx)) (by omega)

lemma monthLengths_sum (L : Bool) : (monthLengths L).sum = if L then 366 else 365 := by
  cases L <;> decide

lemma monthLengths_le31 (L : Bool) : ∀ x ∈ monthLengths L, x ≤ 31 := by
  cases L <;> decide

lemma monthLengths_len (L : Bool) : (monthLengths L).length = 12 := by
  cases L <;> rfl

lemma daysInYear_eq_sum (y : Nat) : daysInYear y = (monthLengths (isLeap y)).sum := by
  rw [monthLengths_sum, daysInYear]

lemma monthName_mem (m : Nat) (h1 : 1 ≤ m) (h2 : m ≤ 12) : monthName m ∈ monthNames := by
  interval_cases m <;> decide

lemma strInfix_head (t b : String) : t.data <:+: (t ++ b).data :=
  ⟨[], b.data, by simp [String.data_append]⟩

lemma strInfix_cons (x : String) {t l : String} (h : t.data <:+: l.data) :
    t.data <:+: (x ++ l).data := by
  obtain ⟨s, u, hsu⟩ := h
  refine ⟨x.data ++ s, u, ?_⟩
  rw [String.data_append, ← hsu]
  simp [List.append_assoc]

lemma strInfix_chunk4 (p q u s b : String) :
    (p ++ (q ++ (u ++ s))).data <:+: (p ++ (q ++ (u ++ (s ++ b)))).data :=
  ⟨[], b.data, by simp [String.data_append, List.append_assoc]⟩

/-- C7: each digest row carries the title, company and location, an
Apply anchor whose href is the stored URL with `target=_blank` and
`rel=noopener`, and the formatted posting time; `fmt_time` renders the
falsy timestamp 0 as the empty string (not a 1970 date), renders the
concrete instant 1700000000 as "15 Nov 2023, 03:43 AM IST", and for any
positive timestamp produces `DD Mon YYYY, HH:MM AM/PM IST` with the
fields in their calendar and clock ranges. -/
theorem C7_digest_row_rendering (title company location url : String) (ts : Int) :
    title.data <:+: (render_row title company location url ts).data
  ∧ company.data <:+: (render_row title company location url ts).data
  ∧ location.data <:+: (render_row title company location url ts).data
  ∧ ("href=" ++ (sq ++ (url ++ sq))).data <:+: (render_row title company location url ts).data
  ∧ ("target=" ++ (sq ++ ("_blank" ++ sq))).data
      <:+: (render_row title company location url ts).data
  ∧ ("rel=" ++ (sq ++ ("noopener" ++ sq))).data
      <:+: (render_row title company location url ts).data
  ∧ (">Apply</a>" : String).data <:+: (render_row title company location url ts).data
  ∧ (fmt_time ts).data <:+: (render_row title company location url ts).data
  ∧ fmt_time 0 = ""
  ∧ fmt_time 1700000000 = "15 Nov 2023, 03:43 AM IST"
  ∧ (0 < ts → ∃ d m y h12 mi ap,
        fmt_time ts = pad2 d ++ (" " ++ (monthName m ++ (" " ++ (toString y ++
          (", " ++ (pad2 h12 ++ (":" ++ (pad2 mi ++ (" " ++ (ap ++ " IST"))))))))))
      ∧ 1 ≤ d ∧ d ≤ 31 ∧ 1 ≤ m ∧ m ≤ 12 ∧ monthName m ∈ monthNames ∧ 1970 ≤ y
      ∧ 1 ≤ h12 ∧ h12 ≤ 12 ∧ mi ≤ 59 ∧ (ap = "AM" ∨ ap = "PM")) := by
  refine ⟨?_, ?_, ?_, ?_, ?_, ?_, ?_, ?_, rfl, by decide, ?_⟩
  · simp only [render_row]
    repeat (first | exact strInfix_head _ _ | apply strInfix_cons)
  · simp only [render_row]
    repeat (first | exact strInfix_head _ _ | apply strInfix_cons)
  · simp only [render_row]
    repeat (first | exact strInfix_head _ _ | apply strInfix_cons)
  · simp only [render_row]
    repeat (first | exact strInfix_chunk4 _ _ _ _ _ | apply strInfix_cons)
  · simp only [render_row]
    repeat (first | exact strInfix_chunk4 _ _ _ _ _ | apply strInfix_cons)
  · simp only [render_row]
    repeat (first | exact strInfix_chunk4 _ _ _ _ _ | apply strInfix_cons)
  · simp only [render_row]
    repeat (first | exact strInfix_head _ _ | apply strInfix_cons)
  · simp only [render_row]
    repeat (first | exact strInfix_head _ _ | apply strInfix_cons)
  · intro hpos
    have hne : ts ≠ 0 := by omega
    have hdoy : (istYD ts).2 < daysInYear (istYD ts).1 :=
      yearFrom_lt (istDays ts + 1) 1970 (istDays ts) (Nat.lt_succ_self _)
    have hdoy' : (istYD ts).2 < (monthLengths (isLeap (istYD ts).1)).sum := by
      rw [← daysInYear_eq_sum]
      exact hdoy
    have hm1 : 1 ≤ (istMD ts).1 := monthFrom_ge _ 1 _
    have hm12 : (istMD ts).1 ≤ 12 := by
      have h := monthFrom_lt (monthLengths (isLeap (istYD ts).1)) 1 (istYD ts).2 hdoy'
      rw [monthLengths_len] at h
      rw [istMD]
      omega
    have hd31 : (istMD ts).2 < 31 :=
      monthFrom_day _ 1 _ (monthLengths_le31 _) hdoy'
    have hy : 1970 ≤ (istYD ts).1 := yearFrom_ge _ 1970 _
    have hsod : istSod ts % 3600 < 3600 := Nat.mod_lt _ (by norm_num)
    have hmin : istMin ts ≤ 59 := by
      rw [istMin]
      omega
    have hh12a : 1 ≤ istH12 ts := by
      rw [istH12]
      split <;> omega
    have hh12b : istH12 ts ≤ 12 := by
      have : istHour ts % 12 < 12 := Nat.mod_lt _ (by norm_num)
      rw [istH12]
      split <;> omega
    refine ⟨(istMD ts).2 + 1, (istMD ts).1, (istYD ts).1, istH12 ts, istMin ts,
      istAmPm ts, ?_, by omega, by omega, hm1, hm12, monthName_mem _ hm1 hm12, hy,
      hh12a, hh12b, hmin, ?_⟩
    · rw [fmt_time, if_neg hne]
    · rw [istAmPm]
      split
      · exact Or.inl rfl
      · exact Or.inr rfl

/-- Witness for C7: the shape fact instantiated at the concrete instant
1700000000. -/
theorem C7_digest_row_rendering_witness :
    ∃ d m y h12 mi ap,
      fmt_time 1700000000 = pad2 d ++ (" " ++ (monthName m ++ (" " ++ (toString y ++
        (", " ++ (pad2 h12 ++ (":" ++ (pad2 mi ++ (" " ++ (ap ++ " IST"))))))))))
    ∧ 1 ≤ d ∧ d ≤ 31 ∧ 1 ≤ m ∧ m ≤ 12 ∧ monthName m ∈ monthNames ∧ 1970 ≤ y
    ∧ 1 ≤ h12 ∧ h12 ≤ 12 ∧ mi ≤ 59 ∧ (ap = "AM" ∨ ap = "PM") :=
  (C7_digest_row_rendering "t" "c" "l" "u" 1700000000).2.2.2.2.2.2.2.2.2.2
    (by norm_num)

end JobHunter
